import Mathlib

/-
Verification of the rangecomp interval-relation library (src/src/lib.rs).

The library compares two intervals through four boundary markers: the left
interval's start and end boundaries (ls, le) and the right interval's
(rs, re).  The thirteen Allen-style relation predicates, the derived
predicates (disjoint, intersects) and the string-keyed dispatch `op` are
translated below directly from the Rust source.  The `Boundary<T>` marker
type itself comes from the external `boundary` crate, which is not part of
this repository; its total order is modelled from the specification (§3).
-/

namespace Rangecomp

/-- Modelled from the spec: the external `boundary` crate's marker type
`Boundary<T>` (spec §3).  `EQ v` is the spec's `Inclusive(v)` marker and
`LT v` is the spec's `ExclusiveUpperBound(v)` marker, using the constructor
names that appear in the Rust source (`Boundary::EQ`, `Boundary::LT`,
`Boundary::NegativeInfinity`, `Boundary::Infinity`). -/
inductive Boundary (T : Type) where
  | NegativeInfinity : Boundary T
  | Infinity : Boundary T
  | EQ : T → Boundary T
  | LT : T → Boundary T
deriving DecidableEq

variable {T : Type} [LinearOrder T]

/-- Modelled from the spec: the strict order on boundary markers required by
spec §3: `NegativeInfinity` ranks below every finite marker, `Infinity`
above; `EQ`/`LT` markers over finite values compare by value, and
`LT v` (the exclusive upper bound at `v`) ranks strictly between every
finite marker below `v` and the inclusive marker `EQ v`. -/
def blt : Boundary T → Boundary T → Bool
  | .NegativeInfinity, .NegativeInfinity => false
  | .NegativeInfinity, .Infinity => true
  | .NegativeInfinity, .EQ _ => true
  | .NegativeInfinity, .LT _ => true
  | .Infinity, .NegativeInfinity => false
  | .Infinity, .Infinity => false
  | .Infinity, .EQ _ => false
  | .Infinity, .LT _ => false
  | .EQ _, .NegativeInfinity => false
  | .EQ _, .Infinity => true
  | .EQ a, .EQ b => decide (a < b)
  | .EQ a, .LT b => decide (a < b)
  | .LT _, .NegativeInfinity => false
  | .LT _, .Infinity => true
  | .LT a, .EQ b => decide (a ≤ b)
  | .LT a, .LT b => decide (a < b)

/-- Modelled from the spec: marker equality (spec §3): markers over equal
values compare by kind, not just by value — two `EQ v` markers are equal,
but `EQ v` and `LT v` are not. -/
def beq : Boundary T → Boundary T → Bool
  | .NegativeInfinity, .NegativeInfinity => true
  | .NegativeInfinity, .Infinity => false
  | .NegativeInfinity, .EQ _ => false
  | .NegativeInfinity, .LT _ => false
  | .Infinity, .NegativeInfinity => false
  | .Infinity, .Infinity => true
  | .Infinity, .EQ _ => false
  | .Infinity, .LT _ => false
  | .EQ _, .NegativeInfinity => false
  | .EQ _, .Infinity => false
  | .EQ a, .EQ b => decide (a = b)
  | .EQ _, .LT _ => false
  | .LT _, .NegativeInfinity => false
  | .LT _, .Infinity => false
  | .LT _, .EQ _ => false
  | .LT a, .LT b => decide (a = b)

/-- Non-strict marker order: `a <= b` of the `boundary` crate's total order,
i.e. strictly below or equal. -/
def ble (a b : Boundary T) : Bool := blt a b || beq a b

/-- An interval as the relation engine sees it: its start boundary and its
end boundary.  This is the `(Boundary<T>, Boundary<T>)` instance of the
`RangeComp` trait, whose `start_boundary` is the first component and whose
`end_boundary` is the second. -/
abbrev Itv (T : Type) := Boundary T × Boundary T

/-- `RangeComp::intersects`: `ls <= re && le <= rs` (the literal comparison
in the source). -/
def intersects (l r : Itv T) : Bool := ble l.1 r.2 && ble l.2 r.1

/-- `RangeComp::overlaps`: `ls < re && rs < le && le < re`. -/
def overlaps (l r : Itv T) : Bool := blt l.1 r.2 && blt r.1 l.2 && blt l.2 r.2

/-- `RangeComp::before`: `le < rs`. -/
def before (l r : Itv T) : Bool := blt l.2 r.1

/-- `RangeComp::meets`: `le == rs`. -/
def meets (l r : Itv T) : Bool := beq l.2 r.1

/-- `RangeComp::starts`: `ls == rs && le < re`. -/
def starts (l r : Itv T) : Bool := beq l.1 r.1 && blt l.2 r.2

/-- `RangeComp::during`: `ls > rs && le < re`. -/
def during (l r : Itv T) : Bool := blt r.1 l.1 && blt l.2 r.2

/-- `RangeComp::finishes`: `ls > rs && le == re`. -/
def finishes (l r : Itv T) : Bool := blt r.1 l.1 && beq l.2 r.2

/-- `RangeComp::equals`: `ls == rs && le == re`. -/
def equals (l r : Itv T) : Bool := beq l.1 r.1 && beq l.2 r.2

/-- `RangeComp::overlappedby`: `other.overlaps(self)`. -/
def overlappedby (l r : Itv T) : Bool := overlaps r l

/-- `RangeComp::disjoint`: `!self.intersects(other)`. -/
def disjoint (l r : Itv T) : Bool := !intersects l r

/-- `RangeComp::after`: `other.before(self)`. -/
def after (l r : Itv T) : Bool := before r l

/-- `RangeComp::metby`: `other.meets(self)`. -/
def metby (l r : Itv T) : Bool := meets r l

/-- `RangeComp::startedby`: `other.starts(self)`. -/
def startedby (l r : Itv T) : Bool := starts r l

/-- `RangeComp::rcontains`: `other.during(self)`. -/
def rcontains (l r : Itv T) : Bool := during r l

/-- `RangeComp::finishedby`: `other.finishes(self)`. -/
def finishedby (l r : Itv T) : Bool := finishes r l

/-- The `impl RangeComp for Range<T>` boundary extraction: `a..b` has start
boundary `Boundary::EQ(a)` and end boundary `Boundary::LT(b)`. -/
def rangeBounds (a b : T) : Itv T := (.EQ a, .LT b)

/-- The `impl RangeComp for RangeInclusive<T>` boundary extraction:
`a..=b` gives `(EQ a, EQ b)`. -/
def rangeInclusiveBounds (a b : T) : Itv T := (.EQ a, .EQ b)

/-- The `impl RangeComp for RangeTo<T>` boundary extraction:
`..b` gives `(NegativeInfinity, LT b)`. -/
def rangeToBounds (b : T) : Itv T := (.NegativeInfinity, .LT b)

/-- The `impl RangeComp for RangeFrom<T>` boundary extraction:
`a..` gives `(EQ a, Infinity)`. -/
def rangeFromBounds (a : T) : Itv T := (.EQ a, .Infinity)

/-- The `impl RangeComp for RangeToInclusive<T>` boundary extraction:
`..=b` gives `(NegativeInfinity, EQ b)`. -/
def rangeToInclusiveBounds (b : T) : Itv T := (.NegativeInfinity, .EQ b)

/-- The `impl RangeComp for RangeFull` boundary extraction:
`..` gives `(NegativeInfinity, Infinity)`. -/
def rangeFullBounds : Itv T := (.NegativeInfinity, .Infinity)

/-- The `impl RangeComp for (Boundary<T>, Boundary<T>)` boundary
extraction: an explicit boundary pair returns its components unchanged. -/
def pairBounds (p : Itv T) : Itv T := (p.1, p.2)

/-- Modelled from the spec: the §4.1 marker name `Inclusive(v)`, which the
source realizes as `Boundary::EQ(v)`. -/
def Inclusive (v : T) : Boundary T := .EQ v

/-- Modelled from the spec: the §4.1 marker name `ExclusiveUpperBound(v)`,
which the source realizes as `Boundary::LT(v)`. -/
def ExclusiveUpperBound (v : T) : Boundary T := .LT v

/-- ASCII lower-casing of one character, the behaviour of Rust's
`str::to_lowercase` on the ASCII relation names `op` is called with. -/
def lowerChar (c : Char) : Char :=
  if 'A' ≤ c ∧ c ≤ 'Z' then Char.ofNat (c.toNat + 32) else c

/-- Splitting a character list on `'_'`, front to back: the token list that
Rust's `str::split('_')` yields.  It is never empty — an input without any
underscore yields the one-element list holding the whole input. -/
def splitOnU : List Char → List (List Char)
  | [] => [[]]
  | c :: rest =>
    match splitOnU rest with
    | [] => [[]]
    | t :: ts => if c = '_' then [] :: t :: ts else (c :: t) :: ts

/-- Rust's `str::rsplit('_')`: the `split('_')` tokens back to front, so
`.head?` is the token after the last underscore. -/
def rsplitU (s : List Char) : List (List Char) := (splitOnU s).reverse

/-- The two failure modes of `RangeComp::op`: the `expect("Operator Does
Not Exist")` on the normalization step, and the `unimplemented!` fallthrough
arm of the keyword match. -/
inductive OpErr where
  | expectFailed : OpErr
  | unknownOp : OpErr
deriving DecidableEq

/-- The keyword match of `RangeComp::op`: the `match op { "intersects" =>
..., ..., _ => unimplemented!(...) }` table applied to the normalized
token, arms in source order. -/
def opArm (l r : Itv T) (tok : List Char) : Except OpErr Bool :=
  if tok = "intersects".data then Except.ok (intersects l r)
    else if tok = "overlaps".data then Except.ok (overlaps l r)
    else if tok = "anyinteracts".data then Except.ok (intersects l r)
    else if tok = "disjoint".data then Except.ok (disjoint l r)
    else if tok = "before".data then Except.ok (before l r)
    else if tok = "after".data then Except.ok (after l r)
    else if tok = "meeets".data then Except.ok (meets l r)
    else if tok = "metby".data then Except.ok (metby l r)
    else if tok = "starts".data then Except.ok (starts l r)
    else if tok = "startedby".data then Except.ok (startedby l r)
    else if tok = "during".data then Except.ok (during l r)
    else if tok = "contains".data then Except.ok (rcontains l r)
    else if tok = "finishes".data then Except.ok (finishes l r)
    else if tok = "finishedby".data then Except.ok (finishedby l r)
  else if tok = "equals".data then Except.ok (equals l r)
  else Except.error OpErr.unknownOp

/-- `RangeComp::op`: lower-case the relation name, keep the token after the
last underscore (`rsplit('_').next().expect(...)`), and dispatch on it
through the keyword table; an unmatched keyword hits the `unimplemented!`
arm.  Fatal panics are modelled as `Except.error`. -/
def op (l r : Itv T) (name : String) : Except OpErr Bool :=
  match (rsplitU (name.data.map lowerChar)).head? with
  | none => Except.error OpErr.expectFailed
  | some tok => opArm l r tok

/-- The keyword column of `op`'s match table, in source order. -/
def opKeywords : List (List Char) :=
  ["intersects".data, "overlaps".data, "anyinteracts".data, "disjoint".data,
   "before".data, "after".data, "meeets".data, "metby".data, "starts".data,
   "startedby".data, "during".data, "contains".data, "finishes".data,
   "finishedby".data, "equals".data]

/-
Helper lemmas about the modelled boundary order and the dispatch plumbing.
-/

/-- Marker equality is reflexive. -/
lemma beq_refl (b : Boundary T) : beq b b = true := by
  cases b <;> simp [beq]

/-- The modelled marker order is antisymmetric: two markers below or equal
to each other are equal. -/
lemma ble_antisymm (a b : Boundary T) : (ble a b && ble b a) = beq a b := by
  cases a <;> cases b <;> try rfl
  · rename_i a b
    rcases lt_trichotomy a b with h | h | h
    · simp [ble, blt, beq, h, h.ne, h.ne', lt_asymm h]
    · subst h; simp [ble, blt, beq, lt_irrefl]
    · simp [ble, blt, beq, h, h.ne, h.ne', lt_asymm h]
  · rename_i a b
    rcases le_or_lt b a with h | h
    · simp [ble, blt, beq, not_lt.2 h]
    · simp [ble, blt, beq, h, not_le.2 h]
  · rename_i a b
    rcases le_or_lt a b with h | h
    · simp [ble, blt, beq, not_lt.2 h]
    · simp [ble, blt, beq, h, not_le.2 h]
  · rename_i a b
    rcases lt_trichotomy a b with h | h | h
    · simp [ble, blt, beq, h, h.ne, h.ne', lt_asymm h]
    · subst h; simp [ble, blt, beq, lt_irrefl]
    · simp [ble, blt, beq, h, h.ne, h.ne', lt_asymm h]

/-- A marker strictly below another is not equal to it. -/
lemma blt_beq_false (a b : Boundary T) (h : blt a b = true) : beq a b = false := by
  cases a <;> cases b <;> first
    | rfl
    | (simp only [blt, decide_eq_true_eq] at h
       simp only [beq, decide_eq_false_iff_not]
       exact ne_of_lt h)
    | exact absurd h (by simp [blt])

/-- Splitting on underscores always yields at least one token. -/
lemma splitOnU_ne_nil (s : List Char) : splitOnU s ≠ [] := by
  cases s with
  | nil => simp [splitOnU]
  | cons c rest =>
    cases h : splitOnU rest with
    | nil => simp [splitOnU, h]
    | cons t ts =>
      rw [splitOnU, h]
      by_cases hc : c = '_' <;> simp [hc]

/-- An `if` whose branches both differ from `x` differs from `x`. -/
lemma ite_ne {α : Type} {c : Prop} [Decidable c] {a b x : α}
    (ha : a ≠ x) (hb : b ≠ x) : (if c then a else b) ≠ x := by
  by_cases h : c
  · rw [if_pos h]; exact ha
  · rw [if_neg h]; exact hb

/-- A successful dispatch result is never a failure. -/
lemma ok_ne_error {b : Bool} {e : OpErr} :
    (Except.ok b : Except OpErr Bool) ≠ Except.error e :=
  fun h => Except.noConfusion h

/-- No arm of the keyword table produces the `expect` failure: every arm is
either a relation result or the `unimplemented!` fallthrough. -/
lemma opArm_ne_expectFailed (l r : Itv T) (tok : List Char) :
    opArm l r tok ≠ Except.error OpErr.expectFailed := by
  rw [opArm]
  refine ite_ne ok_ne_error ?_
  refine ite_ne ok_ne_error ?_
  refine ite_ne ok_ne_error ?_
  refine ite_ne ok_ne_error ?_
  refine ite_ne ok_ne_error ?_
  refine ite_ne ok_ne_error ?_
  refine ite_ne ok_ne_error ?_
  refine ite_ne ok_ne_error ?_
  refine ite_ne ok_ne_error ?_
  refine ite_ne ok_ne_error ?_
  refine ite_ne ok_ne_error ?_
  refine ite_ne ok_ne_error ?_
  refine ite_ne ok_ne_error ?_
  refine ite_ne ok_ne_error ?_
  refine ite_ne ok_ne_error ?_
  exact fun h => Except.noConfusion h fun hh => OpErr.noConfusion hh

/-
The claims.
-/

/-- C1: the partition property fails on the code.  The claim states that on
well-formed interval pairs exactly one of the thirteen relations returns
true; but at the well-formed pair `L = 1..3`, `R = 1..5` (integer domain)
both `starts` and `overlaps` return true, because the `overlaps` formula
compares `ls < re` where the standard Allen relation would compare
`ls < rs`.  This closed theorem evaluates the code at the failing input:
both intervals are well-formed (start boundary ≤ end boundary) and two
distinct relations of the thirteen hold simultaneously. -/
theorem partition_property_violated :
    ble (rangeBounds (1 : ℤ) 3).1 (rangeBounds (1 : ℤ) 3).2 = true ∧
    ble (rangeBounds (1 : ℤ) 5).1 (rangeBounds (1 : ℤ) 5).2 = true ∧
    starts (rangeBounds (1 : ℤ) 3) (rangeBounds 1 5) = true ∧
    overlaps (rangeBounds (1 : ℤ) 3) (rangeBounds 1 5) = true := by
  decide

/-- C2: counterexample.  The claim states that for `L = 1..10`,
`R = 10..20`, `L.meets(R)` returns true; but `meets` compares
`le == rs`, i.e. `ExclusiveUpperBound(10) == Inclusive(10)`, and the
kind-distinguishing marker equality (which the claim itself requires)
makes these unequal, so `meets` returns false. -/
theorem meets_touching_halfopen_counterexample :
    meets (rangeBounds (1 : ℤ) 10) (rangeBounds 10 20) = false := by
  decide

/-- C2 (amended): for `L = 1..10`, `R = 10..20`, L's end boundary is
`ExclusiveUpperBound(10)`, R's start boundary is `Inclusive(10)`, the
boundary order distinguishes these two marker kinds, and therefore
`L.meets(R)` returns false and `R.metby(L)` returns false (the pair is
classified as `before`/`after` instead). -/
theorem meets_touching_halfopen_amended :
    (rangeBounds (1 : ℤ) 10).2 = ExclusiveUpperBound 10 ∧
    (rangeBounds (10 : ℤ) 20).1 = Inclusive 10 ∧
    beq (ExclusiveUpperBound (10 : ℤ)) (Inclusive 10) = false ∧
    meets (rangeBounds (1 : ℤ) 10) (rangeBounds 10 20) = false ∧
    metby (rangeBounds (10 : ℤ) 20) (rangeBounds 1 10) = false ∧
    before (rangeBounds (1 : ℤ) 10) (rangeBounds 10 20) = true := by
  refine ⟨rfl, rfl, ?_, ?_, ?_, ?_⟩ <;> decide

/-- C3: the six reciprocal symmetry laws hold exactly, for every pair of
intervals: `L.starts(R) == R.startedby(L)`, `L.meets(R) == R.metby(L)`,
`L.finishes(R) == R.finishedby(L)`, `L.after(R) == R.before(L)`,
`L.rcontains(R) == R.during(L)`, `L.overlaps(R) == R.overlappedby(L)`.
Each law is definitional: every reciprocal is implemented by swapping the
arguments into the base relation. -/
theorem reciprocal_symmetry (l r : Itv T) :
    starts l r = startedby r l ∧
    meets l r = metby r l ∧
    finishes l r = finishedby r l ∧
    after l r = before r l ∧
    rcontains l r = during r l ∧
    overlaps l r = overlappedby r l :=
  ⟨rfl, rfl, rfl, rfl, rfl, rfl⟩

/-- C4: the dispatch entry point is case-insensitive and tolerates
underscore-prefixed names: for every pair of intervals,
`op(L, R, "Intersects")` and `op(L, R, "range_intersects")` both return
`L.intersects(R)`, because `op` lower-cases the name and keeps only the
token after the last underscore before matching it. -/
theorem op_case_and_prefix_insensitive (l r : Itv T) :
    op l r "Intersects" = Except.ok (intersects l r) ∧
    op l r "range_intersects" = Except.ok (intersects l r) :=
  ⟨rfl, rfl⟩

/-- C5: the keyword the dispatch table recognizes for the meets relation is
the misspelling `"meeets"`: for every pair of intervals,
`op(L, R, "meeets")` returns `meets(L, R)`, while the correct spelling
`"meets"` matches no arm and falls through to the fatal
`unimplemented!` branch. -/
theorem op_meets_keyword_misspelling (l r : Itv T) :
    op l r "meeets" = Except.ok (meets l r) ∧
    op l r "meets" = Except.error OpErr.unknownOp :=
  ⟨rfl, rfl⟩

/-- C6: for every pair of intervals and every relation name whose
normalized trailing token is not one of the recognized keywords, `op`
fails fatally (the `unimplemented!` arm) and never returns a boolean
result. -/
theorem op_unknown_keyword_fatal (l r : Itv T) (s : String) (tok : List Char)
    (h1 : (rsplitU (s.data.map lowerChar)).head? = some tok)
    (h2 : tok ∉ opKeywords) :
    op l r s = Except.error OpErr.unknownOp := by
  simp only [opKeywords, List.mem_cons, List.not_mem_nil, or_false, not_or] at h2
  obtain ⟨n1, n2, n3, n4, n5, n6, n7, n8, n9, n10, n11, n12, n13, n14, n15⟩ := h2
  simp only [op, h1]
  simp only [opArm, if_neg n1, if_neg n2, if_neg n3, if_neg n4, if_neg n5,
    if_neg n6, if_neg n7, if_neg n8, if_neg n9, if_neg n10, if_neg n11,
    if_neg n12, if_neg n13, if_neg n14, if_neg n15]

/-- C6 witness: dispatching on the unrecognized keyword `"bogus"` at a
concrete integer interval pair fails fatally. -/
theorem op_unknown_keyword_fatal_witness :
    op (rangeBounds (1 : ℤ) 3) (rangeBounds 1 5) "bogus" =
      Except.error OpErr.unknownOp :=
  op_unknown_keyword_fatal _ _ "bogus" "bogus".data (by decide) (by decide)

/-- C7: boundary extraction maps each native range shape to the markers of
the spec's §4.1 table: `a..b` gives `(Inclusive a, ExclusiveUpperBound b)`,
`a..=b` gives `(Inclusive a, Inclusive b)`, `..b` gives
`(NegativeInfinity, ExclusiveUpperBound b)`, `a..` gives
`(Inclusive a, Infinity)`, `..=b` gives `(NegativeInfinity, Inclusive b)`,
the full range gives `(NegativeInfinity, Infinity)`, and an explicit
boundary pair returns its components unchanged. -/
theorem boundary_extraction_table (a b : T) (p : Itv T) :
    rangeBounds a b = (Inclusive a, ExclusiveUpperBound b) ∧
    rangeInclusiveBounds a b = (Inclusive a, Inclusive b) ∧
    rangeToBounds b = (Boundary.NegativeInfinity, ExclusiveUpperBound b) ∧
    rangeFromBounds a = (Inclusive a, Boundary.Infinity) ∧
    rangeToInclusiveBounds b = (Boundary.NegativeInfinity, Inclusive b) ∧
    (rangeFullBounds : Itv T) = (Boundary.NegativeInfinity, Boundary.Infinity) ∧
    pairBounds p = (p.1, p.2) :=
  ⟨rfl, rfl, rfl, rfl, rfl, rfl, rfl⟩

/-- C8: `equals` is reflexive: for every interval `L`, `L.equals(L)`
returns true, because `equals(L, R) = (ls == rs && le == re)` and marker
equality is reflexive. -/
theorem equals_reflexive (l : Itv T) : equals l l = true := by
  simp [equals, beq_refl]

/-- C9: under the literal `intersects` formula `ls <= re && le <= rs`, an
interval applied to itself intersects itself exactly when its start
boundary equals its end boundary; hence every interval whose start
boundary is strictly below its end boundary has `L.intersects(L)` false
and `L.disjoint(L)` true. -/
theorem intersects_self_degenerate (l : Itv T) :
    intersects l l = beq l.1 l.2 ∧
    (blt l.1 l.2 = true → intersects l l = false ∧ disjoint l l = true) := by
  have h1 : intersects l l = beq l.1 l.2 := ble_antisymm l.1 l.2
  refine ⟨h1, fun h => ?_⟩
  have h2 : intersects l l = false := by
    rw [h1]; exact blt_beq_false _ _ h
  exact ⟨h2, by simp [disjoint, h2]⟩

/-- C9 witness: the non-degenerate interval `1..3` over the integers does
not intersect itself and is disjoint from itself. -/
theorem intersects_self_degenerate_witness :
    blt (rangeBounds (1 : ℤ) 3).1 (rangeBounds (1 : ℤ) 3).2 = true ∧
    intersects (rangeBounds (1 : ℤ) 3) (rangeBounds 1 3) = false ∧
    disjoint (rangeBounds (1 : ℤ) 3) (rangeBounds 1 3) = true := by
  refine ⟨by decide, ?_, ?_⟩
  · exact ((intersects_self_degenerate (rangeBounds (1 : ℤ) 3)).2 (by decide)).1
  · exact ((intersects_self_degenerate (rangeBounds (1 : ℤ) 3)).2 (by decide)).2

/-- C10: the name-normalization step of `op` is total: for every input
string, splitting the lower-cased name on underscores and taking the last
token always yields a token, so the `expect("Operator Does Not Exist")`
never fires; the only failure `op` can produce is the explicit
unmatched-keyword branch. -/
theorem op_normalization_total (l r : Itv T) (s : String) :
    (rsplitU (s.data.map lowerChar)).head?.isSome = true ∧
    op l r s ≠ Except.error OpErr.expectFailed := by
  have hne : rsplitU (s.data.map lowerChar) ≠ [] := by
    rw [rsplitU, ne_eq, List.reverse_eq_nil_iff]
    exact splitOnU_ne_nil _
  have hsome : (rsplitU (s.data.map lowerChar)).head?.isSome = true := by
    cases h : rsplitU (s.data.map lowerChar) with
    | nil => exact absurd h hne
    | cons t ts => simp [h]
  refine ⟨hsome, ?_⟩
  obtain ⟨t, ht⟩ := Option.isSome_iff_exists.mp hsome
  simp only [op, ht]
  exact opArm_ne_expectFailed l r t

end Rangecomp
